import Mathlib

/-!
# Urbana-agenda: the booking wizard of `frontend/src/App.js`

A shallow embedding of the state held by the `App` component and of the
handlers that change it, followed by the properties of the wizard.

* React state (`useState`) is a record `AppState`; every `setX(v)` call is a
  field update.
* An `async` handler is split at its `await`: the part that runs up to the
  request, and the continuation that runs when the request settles.  The
  values a continuation reads from its closure are stored with the request.
* What a handler does to the outside world (dialogs, console, HTTP) is a list
  of `Effect`s, in program order.
-/

namespace Urbana

/-! ## Dates

`selectedDate` is a JavaScript `Date`.  It is represented by its time value,
the number of milliseconds since 1970-01-01T00:00:00Z.  The wizard renders it
with `toISOString().split('T')[0]`, the UTC calendar day of the instant, and
the calendar compares it with the local midnight of the current day. -/

/-- JavaScript `Date`, as its time value in milliseconds since the epoch. -/
structure Date where
  ms : Int
  deriving DecidableEq

/-- Milliseconds in one day (`msPerDay` of ECMA-262). -/
def msPerDay : Int := 86400000

/-- Decimal digits of `n`, left-padded with zeros to at least `width` characters. -/
def padZero (width n : Nat) : String :=
  let digits := Nat.toDigits 10 n
  String.mk (List.replicate (width - digits.length) '0' ++ digits)

/-- Proleptic Gregorian year, month (1..12) and day of month (1..31) of the day
that lies `days` days after 1970-01-01. -/
def civilFromDays (days : Int) : Int × Nat × Nat :=
  let z := days + 719468
  let era := z / 146097
  let doe := (z % 146097).toNat
  let yoe := (doe - doe / 1460 + doe / 36524 - doe / 146096) / 365
  let doy := doe - (365 * yoe + yoe / 4 - yoe / 100)
  let mp := (5 * doy + 2) / 153
  let d := doy - (153 * mp + 2) / 5 + 1
  let m := if mp < 10 then mp + 3 else mp - 9
  let y := (yoe : Int) + era * 400
  (if m ≤ 2 then y + 1 else y, m, d)

/-- Year part of `toISOString`: four digits for the years 0 to 9999, otherwise
a sign followed by six digits. -/
def isoYear (y : Int) : String :=
  if 0 ≤ y ∧ y ≤ 9999 then padZero 4 y.toNat
  else if 0 ≤ y then "+" ++ padZero 6 y.toNat
  else "-" ++ padZero 6 (-y).toNat

/-- The expression `date.toISOString().split('T')[0]`: the UTC day of the
instant, written `yyyy-mm-dd`. -/
def toISODateString (date : Date) : String :=
  let (y, m, d) := civilFromDays (date.ms / msPerDay)
  isoYear y ++ "-" ++ padZero 2 m ++ "-" ++ padZero 2 d


/-! ## Data model -/

/-- An entry of the service catalog (`GET /api/services`).  `price` is in minor
units; `none` stands for a record without a price. -/
structure Service where
  id : String
  name : String
  description : String
  price : Option Int
  duration_minutes : Nat
  deriving DecidableEq

/-- An entry of the slot list of one day (`GET /api/available-slots/{date}`). -/
structure TimeSlot where
  time : String
  available : Bool
  deriving DecidableEq

/-- The `clientForm` state. -/
structure ClientForm where
  name : String
  phone : String
  email : String
  deriving DecidableEq

/-- An appointment record, as returned by the backend. -/
structure Appointment where
  id : String
  service_id : String
  service_name : String
  client_name : String
  client_phone : String
  client_email : String
  date : String
  time : String
  status : String
  deriving DecidableEq

/-- The object `appointmentData` sent by `handleBookingSubmit`. -/
structure AppointmentData where
  service_id : String
  client_name : String
  client_phone : String
  client_email : String
  date : String
  time : String
  deriving DecidableEq

/-- The object `{...response.data, service: selectedService}` stored in
`confirmationData`. -/
structure ConfirmationData where
  appointment : Appointment
  service : Option Service
  deriving DecidableEq

/-- The state variables of the `App` component, in declaration order. -/
structure AppState where
  currentPage : String
  services : List Service
  appointments : List Appointment
  selectedDate : Option Date
  availableSlots : List TimeSlot
  selectedService : Option Service
  selectedTime : String
  clientForm : ClientForm
  showConfirmation : Bool
  confirmationData : Option ConfirmationData
  loading : Bool
  deriving DecidableEq

/-- The initial values given to `useState`; `now` is the value of `new Date()`
at the first render. -/
def AppState.initial (now : Date) : AppState where
  currentPage := "home"
  services := []
  appointments := []
  selectedDate := some now
  availableSlots := []
  selectedService := none
  selectedTime := ""
  clientForm := ⟨"", "", ""⟩
  showConfirmation := false
  confirmationData := none
  loading := false

/-- The in-progress selection of the wizard: service, date, time and client
details. -/
structure BookingSelection where
  service : Option Service
  date : Option Date
  time : String
  client : ClientForm
  deriving DecidableEq

/-- The selection held in a state. -/
def AppState.selection (s : AppState) : BookingSelection :=
  ⟨s.selectedService, s.selectedDate, s.selectedTime, s.clientForm⟩

/-! ## Effects -/

/-- A request to the backend; the paths are relative to `BACKEND_URL`. -/
inductive Request where
  /-- The call `GET /api/services`. -/
  | getServices
  /-- The call `GET /api/available-slots/{dateString}`. -/
  | getAvailableSlots (dateString : String)
  /-- The call `GET /api/appointments`. -/
  | getAppointments
  /-- The call `POST /api/appointments` with the given body. -/
  | postAppointment (body : AppointmentData)
  deriving DecidableEq

/-- What a handler does to the outside world. -/
inductive Effect where
  /-- The call `e.preventDefault()`. -/
  | preventDefault
  /-- The call `alert(msg)`. -/
  | alert (msg : String)
  /-- The call `console.error(msg, error)`. -/
  | consoleError (msg : String)
  /-- A call of `axios.get` or `axios.post`. -/
  | request (r : Request)
  deriving DecidableEq

/-- The creation requests among a list of effects. -/
def creationRequests (effects : List Effect) : List AppointmentData :=
  effects.filterMap fun
    | .request (.postAppointment body) => some body
    | _ => none

/-- All requests among a list of effects, in order. -/
def requestsOf (effects : List Effect) : List Request :=
  effects.filterMap fun
    | .request r => some r
    | _ => none

/-- The text of the `alert` shown when a required field is missing. -/
def requiredFieldsMessage : String := "Por favor, preencha todos os campos obrigatórios"

/-- The text of the `alert` shown when the creation request fails. -/
def submissionFailedMessage : String := "Erro ao realizar agendamento. Tente novamente."

/-- How an awaited request settles: with response data, or with a rejection. -/
inductive Outcome (α : Type) where
  | resolved (data : α)
  | rejected
  deriving DecidableEq

/-! ## The fetchers -/

/-- The part of `fetchServices` after its `await`, run on the state held when
the request settles. -/
def fetchServices_settle (s : AppState) (o : Outcome (List Service)) : AppState × List Effect :=
  match o with
  | .resolved data => ({ s with services := data }, [])
  | .rejected => (s, [.consoleError "Erro ao buscar serviços:"])

/-- The function `fetchServices`, run from the state `s` with no other event
before the request settles with `o`. -/
def fetchServices (s : AppState) (o : Outcome (List Service)) : AppState × List Effect :=
  let r := fetchServices_settle s o
  (r.1, .request .getServices :: r.2)

/-- The part of `fetchAvailableSlots` before its `await`, for the `selectedDate`
of the render that created it.  Without a date `selectedDate.toISOString()`
throws, which the `catch` block logs; otherwise the request is issued. -/
def fetchAvailableSlots_begin (selectedDate : Option Date) : List Effect :=
  match selectedDate with
  | none => [.consoleError "Erro ao buscar horários:"]
  | some d => [.request (.getAvailableSlots (toISODateString d))]

/-- The part of `fetchAvailableSlots` after its `await`, run on the state held
when the request settles. -/
def fetchAvailableSlots_settle (s : AppState) (o : Outcome (List TimeSlot)) :
    AppState × List Effect :=
  match o with
  | .resolved data => ({ s with availableSlots := data }, [])
  | .rejected => (s, [.consoleError "Erro ao buscar horários:"])

/-- The function `fetchAvailableSlots`, run from the state `s` with no other
event before the request settles with `o`. -/
def fetchAvailableSlots (s : AppState) (o : Outcome (List TimeSlot)) : AppState × List Effect :=
  match s.selectedDate with
  | none => (s, fetchAvailableSlots_begin none)
  | some d =>
    let r := fetchAvailableSlots_settle s o
    (r.1, fetchAvailableSlots_begin (some d) ++ r.2)

/-- The part of `fetchAppointments` after its `await`, run on the state held
when the request settles. -/
def fetchAppointments_settle (s : AppState) (o : Outcome (List Appointment)) :
    AppState × List Effect :=
  match o with
  | .resolved data => ({ s with appointments := data }, [])
  | .rejected => (s, [.consoleError "Erro ao buscar agendamentos:"])

/-- The function `fetchAppointments`, run from the state `s` with no other
event before the request settles with `o`. -/
def fetchAppointments (s : AppState) (o : Outcome (List Appointment)) : AppState × List Effect :=
  let r := fetchAppointments_settle s o
  (r.1, .request .getAppointments :: r.2)

/-! ## Submission -/

/-- The test `!selectedService || !selectedTime || !clientForm.name ||
!clientForm.phone` at the head of `handleBookingSubmit`. -/
def validationFails (s : AppState) : Bool :=
  s.selectedService.isNone || s.selectedTime == "" || s.clientForm.name == "" ||
    s.clientForm.phone == ""

/-- A creation request in flight: the continuation of `handleBookingSubmit`
suspended at `await axios.post`, with the values it reads from its closure. -/
structure PendingSubmit where
  body : AppointmentData
  selectedService : Service
  selectedDate : Date
  deriving DecidableEq

/-- Result of the part of `handleBookingSubmit` that runs before its `await`. -/
structure SubmitBegin where
  state : AppState
  effects : List Effect
  pending : Option PendingSubmit
  deriving DecidableEq

/-- The part of `handleBookingSubmit` before `await axios.post`.

* validation fails: `alert` and `return`;
* otherwise `setLoading(true)` and the `try` block builds `appointmentData`;
  with no `selectedDate` the call `selectedDate.toISOString()` throws, so
  `catch` logs and alerts and `finally` runs `setLoading(false)`;
* otherwise the request is issued and the handler is suspended. -/
def handleBookingSubmit_begin (s : AppState) : SubmitBegin :=
  if validationFails s then
    ⟨s, [.preventDefault, .alert requiredFieldsMessage], none⟩
  else
    match s.selectedService, s.selectedDate with
    | some service, some date =>
      let appointmentData : AppointmentData :=
        { service_id := service.id
          client_name := s.clientForm.name
          client_phone := s.clientForm.phone
          client_email := s.clientForm.email
          date := toISODateString date
          time := s.selectedTime }
      ⟨{ s with loading := true },
        [.preventDefault, .request (.postAppointment appointmentData)],
        some ⟨appointmentData, service, date⟩⟩
    | _, _ =>
      ⟨{ s with loading := false },
        [.preventDefault, .consoleError "Erro ao criar agendamento:",
          .alert submissionFailedMessage],
        none⟩

/-- The part of `handleBookingSubmit` after `await axios.post`, run on the state
`s` held when the request settles.  On success: `setConfirmationData`,
`setShowConfirmation(true)`, the form reset and `fetchAvailableSlots()` for the
date of the closure; on failure: log and `alert`; in both cases
`setLoading(false)`. -/
def handleBookingSubmit_settle (k : PendingSubmit) (s : AppState) (o : Outcome Appointment) :
    AppState × List Effect :=
  match o with
  | .resolved data =>
    ({ s with
        confirmationData := some ⟨data, some k.selectedService⟩
        showConfirmation := true
        selectedService := none
        selectedTime := ""
        clientForm := ⟨"", "", ""⟩
        loading := false },
      fetchAvailableSlots_begin (some k.selectedDate))
  | .rejected =>
    ({ s with loading := false },
      [.consoleError "Erro ao criar agendamento:", .alert submissionFailedMessage])

/-- The handler `handleBookingSubmit`, run from the state `s` with no other
event before the creation request (if one is issued) settles with `o`. -/
def handleBookingSubmit (s : AppState) (o : Outcome Appointment) : AppState × List Effect :=
  let b := handleBookingSubmit_begin s
  match b.pending with
  | none => (b.state, b.effects)
  | some k =>
    let r := handleBookingSubmit_settle k b.state o
    (r.1, b.effects ++ r.2)

/-! ## The views

Which handlers the user can trigger depends on what is rendered.  A control
that is not rendered, or a button rendered with `disabled`, dispatches no event.

The predicates of this section say what the JSX of a page puts on screen when
its render completes.  Whether it completes is a separate matter: the render
of `BookingPage` also calls `formatDate`, modelled in the section on
formatting below, and that call throws.  The transitions of the session take
the page as rendered, so they allow everything the program does and more. -/

/-- Whether `renderCurrentPage` shows `BookingPage`. -/
def bookingPageShown (s : AppState) : Bool := s.currentPage == "booking"

/-- The condition `selectedService && selectedDate && selectedTime` under which
step 4, the client form with its submit button, is rendered. -/
def clientFormShown (s : AppState) : Bool :=
  bookingPageShown s && s.selectedService.isSome && s.selectedDate.isSome &&
    s.selectedTime != ""

/-- The attribute `disabled={loading}` of the submit button. -/
def submitDisabled (s : AppState) : Bool := s.loading

/-- The handler of a service option of step 1: `setSelectedService(service)`. -/
def selectService (s : AppState) (service : Service) : AppState :=
  { s with selectedService := some service }

/-- The body of the effect with dependency list `[selectedDate]`. -/
def selectedDateEffect (s : AppState) : List Effect :=
  match s.selectedDate with
  | some d => fetchAvailableSlots_begin (some d)
  | none => []

/-- The calendar of step 2 calling `onSelect={setSelectedDate}` with `d`
(`none` when the day is deselected), followed by the effect of the next render,
which runs when the dependency `selectedDate` has changed.  Dates with
different time values are different objects, so the dependency has changed;
a date equal to the one held counts as the same object. -/
def selectDate (s : AppState) (d : Option Date) : AppState × List Effect :=
  let s1 := { s with selectedDate := d }
  (s1, if s.selectedDate = d then [] else selectedDateEffect s1)

/-- The attribute `disabled={!slot.available}` of a time-slot button. -/
def timeSlotDisabled (slot : TimeSlot) : Bool := !slot.available

/-- Whether step 3 renders a button for `slot`: the step is rendered when
`selectedDate` is set, with one button per element of `availableSlots`. -/
def timeSlotShown (s : AppState) (slot : TimeSlot) : Bool :=
  bookingPageShown s && s.selectedDate.isSome && s.availableSlots.contains slot

/-- A click on the button rendered for `slot`: a disabled button dispatches
nothing, otherwise the handler runs `setSelectedTime(slot.time)`. -/
def clickTimeSlot (s : AppState) (slot : TimeSlot) : AppState :=
  if timeSlotDisabled slot then s
  else { s with selectedTime := slot.time }

/-- The price handed to `formatPrice` by the confirmation dialog: the
expression `confirmationData.service?.price || 0`.  The optional chain yields
no value when the service or its price is missing, and `||` replaces a missing
or zero value by `0`. -/
def confirmationPrice (c : ConfirmationData) : Int :=
  match c.service with
  | none => 0
  | some service =>
    match service.price with
    | none => 0
    | some p => if p = 0 then 0 else p

/-- What the "Agendamentos do Dia" section of `AdminPage` renders. -/
inductive AdminView where
  /-- The paragraph "Nenhum agendamento para hoje". -/
  | noneToday
  /-- One card per appointment, in this order. -/
  | cards (shown : List Appointment)
  deriving DecidableEq

/-- The appointments for which a card is rendered. -/
def AdminView.shown : AdminView → List Appointment
  | .noneToday => []
  | .cards l => l

/-- The conditional of `AdminPage`, `now` being the value of `new Date()`:
the list is filtered by `apt.date === new Date().toISOString().split('T')[0]`,
an empty result shows the message and any other result is mapped to cards. -/
def adminAppointmentsView (appointments : List Appointment) (now : Date) : AdminView :=
  if (appointments.filter fun apt => apt.date == toISODateString now).length == 0 then
    .noneToday
  else
    .cards (appointments.filter fun apt => apt.date == toISODateString now)

/-! ## Formatting

Dates and prices are put on screen through the `Intl` object of the JavaScript
environment.  A formatter call is a value or a thrown error; the texts the
formatters produce are taken from the environment. -/

/-- What the page takes from the JavaScript environment: `new Date(string)`,
and the `format` methods of a date formatter and of the currency formatter.
An unparsable string gives an invalid date, which is not told apart here. -/
structure Env where
  parseDate : String → Date
  dateFormat : Date → String
  numberFormat : Int → String

/-- The constructors that the `Intl` object has (ECMA-402). -/
def intlConstructors : List String :=
  ["Collator", "DateTimeFormat", "DisplayNames", "DurationFormat", "ListFormat", "Locale",
    "NumberFormat", "PluralRules", "RelativeTimeFormat", "Segmenter"]

/-- The error thrown by `new Intl.X(...)` when `Intl.X` is undefined. -/
def notAConstructor (name : String) : String :=
  "TypeError: Intl." ++ name ++ " is not a constructor"

/-- The expression `new Intl.X(...)` for the member named `name`: it throws a
`TypeError` when `Intl` has no such constructor. -/
def newIntl (name : String) : Except String Unit :=
  if intlConstructors.contains name then .ok () else .error (notAConstructor name)

/-- The function `formatPrice`: `new Intl.NumberFormat('pt-BR', ...).format(price)`. -/
def formatPrice (env : Env) (price : Int) : Except String String :=
  match newIntl "NumberFormat" with
  | .error e => .error e
  | .ok _ => .ok (env.numberFormat price)

/-- The function `formatDate`: `new Intl.DateFormat('pt-BR', ...).format(date)`. -/
def formatDate (env : Env) (date : Date) : Except String String :=
  match newIntl "DateFormat" with
  | .error e => .error e
  | .ok _ => .ok (env.dateFormat date)

/-- The paragraph "Data selecionada" of step 2:
`selectedDate && formatDate(selectedDate)`. -/
def selectedDateLine (env : Env) (s : AppState) : Except String (Option String) :=
  match s.selectedDate with
  | none => .ok none
  | some d =>
    match formatDate env d with
    | .error e => .error e
    | .ok text => .ok (some text)

/-- The lines of the confirmation dialog, as texts. -/
structure ConfirmationView where
  code : String
  service_name : String
  date : String
  time : String
  client_name : String
  client_phone : String
  price : String
  deriving DecidableEq

/-- The block `confirmationData && (...)` of the confirmation dialog, its
expressions evaluated in source order: the code from the last eight characters
of the id in upper case (ids are taken to be ASCII), the service name, the date
through `formatDate(new Date(confirmationData.date + 'T00:00:00'))`, time,
client name and phone, and the price through
`formatPrice(confirmationData.service?.price || 0)`. -/
def confirmationDetails (env : Env) (confirmationData : Option ConfirmationData) :
    Except String (Option ConfirmationView) :=
  match confirmationData with
  | none => .ok none
  | some c =>
    let code := "#" ++ (c.appointment.id.takeRight 8).toUpper
    match formatDate env (env.parseDate (c.appointment.date ++ "T00:00:00")) with
    | .error e => .error e
    | .ok date =>
      match formatPrice env (confirmationPrice c) with
      | .error e => .error e
      | .ok price =>
        .ok (some
          { code := code
            service_name := c.appointment.service_name
            date := date
            time := c.appointment.time
            client_name := c.appointment.client_name
            client_phone := c.appointment.client_phone
            price := price })

/-! ## The session as a transition system

Handlers run to completion before the next event is processed, so a session is
a sequence of events, each applied to the state left by the previous one.  The
creation requests in flight are kept next to the component state.  Responses
to the `GET` requests are allowed at any time and the calendar may hand over
any day: every state the application can reach is reachable here. -/

/-- Component state together with the creation requests in flight. -/
structure Sys where
  app : AppState
  posts : List PendingSubmit
  deriving DecidableEq

/-- The events of a session: what the user does and what the network delivers. -/
inductive Event where
  /-- A navigation link or button: `setCurrentPage(page)`. -/
  | navigate (page : String)
  /-- The button "Agendar Este Serviço" of a card on the services page. -/
  | bookService (service : Service)
  /-- A click on a service option of step 1. -/
  | selectService (service : Service)
  /-- The calendar of step 2 reporting a day, or a deselection. -/
  | selectDate (d : Option Date)
  /-- A click on a time-slot button of step 3. -/
  | clickTimeSlot (slot : TimeSlot)
  /-- Typing in the name field of step 4. -/
  | changeName (value : String)
  /-- Typing in the phone field of step 4. -/
  | changePhone (value : String)
  /-- Typing in the e-mail field of step 4. -/
  | changeEmail (value : String)
  /-- A submission of the form of step 4 (its button, or the Enter key). -/
  | submit
  /-- The confirmation dialog calling `setShowConfirmation`. -/
  | setShowConfirmation (value : Bool)
  /-- The catalog request settles. -/
  | servicesSettled (o : Outcome (List Service))
  /-- An availability request settles. -/
  | slotsSettled (o : Outcome (List TimeSlot))
  /-- The listing request settles. -/
  | appointmentsSettled (o : Outcome (List Appointment))
  /-- The creation request at position `i` of the in-flight list settles. -/
  | postSettled (i : Nat) (o : Outcome Appointment)
  deriving DecidableEq

/-- Whether an event is the settling of a creation request. -/
def Event.isPostSettled : Event → Bool
  | .postSettled _ _ => true
  | _ => false

/-- One event applied to the session: the state it leaves and its effects. -/
def step (sys : Sys) : Event → Sys × List Effect
  | .navigate page =>
    ({ sys with app := { sys.app with currentPage := page } },
      if page = "admin" then [.request .getAppointments] else [])
  | .bookService service =>
    if sys.app.currentPage == "services" && sys.app.services.contains service then
      ({ sys with app :=
          { sys.app with selectedService := some service, currentPage := "booking" } }, [])
    else (sys, [])
  | .selectService service =>
    if bookingPageShown sys.app && sys.app.services.contains service then
      ({ sys with app := selectService sys.app service }, [])
    else (sys, [])
  | .selectDate d =>
    if bookingPageShown sys.app then
      let r := selectDate sys.app d
      ({ sys with app := r.1 }, r.2)
    else (sys, [])
  | .clickTimeSlot slot =>
    if timeSlotShown sys.app slot then
      ({ sys with app := clickTimeSlot sys.app slot }, [])
    else (sys, [])
  | .changeName value =>
    if clientFormShown sys.app then
      ({ sys with app := { sys.app with clientForm := { sys.app.clientForm with name := value } } },
        [])
    else (sys, [])
  | .changePhone value =>
    if clientFormShown sys.app then
      ({ sys with app :=
          { sys.app with clientForm := { sys.app.clientForm with phone := value } } }, [])
    else (sys, [])
  | .changeEmail value =>
    if clientFormShown sys.app then
      ({ sys with app :=
          { sys.app with clientForm := { sys.app.clientForm with email := value } } }, [])
    else (sys, [])
  | .submit =>
    if clientFormShown sys.app && !submitDisabled sys.app then
      let b := handleBookingSubmit_begin sys.app
      ({ app := b.state, posts := sys.posts ++ b.pending.toList }, b.effects)
    else (sys, [])
  | .setShowConfirmation value =>
    if bookingPageShown sys.app then
      ({ sys with app := { sys.app with showConfirmation := value } }, [])
    else (sys, [])
  | .servicesSettled o =>
    let r := fetchServices_settle sys.app o
    ({ sys with app := r.1 }, r.2)
  | .slotsSettled o =>
    let r := fetchAvailableSlots_settle sys.app o
    ({ sys with app := r.1 }, r.2)
  | .appointmentsSettled o =>
    let r := fetchAppointments_settle sys.app o
    ({ sys with app := r.1 }, r.2)
  | .postSettled i o =>
    match sys.posts.get? i with
    | none => (sys, [])
    | some k =>
      let r := handleBookingSubmit_settle k sys.app o
      ({ app := r.1, posts := sys.posts.eraseIdx i }, r.2)

/-- A sequence of events applied in order, with the effects concatenated. -/
def run (sys : Sys) : List Event → Sys × List Effect
  | [] => (sys, [])
  | e :: es =>
    let r := step sys e
    let rest := run r.1 es
    (rest.1, r.2 ++ rest.2)

/-- The session at the first render; `now` is the value of `new Date()`. -/
def Sys.initial (now : Date) : Sys := ⟨AppState.initial now, []⟩

/-- The states a session can be in. -/
inductive Reachable : Sys → Prop where
  | init (now : Date) : Reachable (Sys.initial now)
  | step {sys : Sys} (e : Event) : Reachable sys → Reachable (step sys e).1

/-- The link between `loading` and the creation requests in flight: none is in
flight and the flag is down, or exactly one is in flight and the flag is up. -/
def FlagInv (sys : Sys) : Prop :=
  (sys.posts = [] ∧ sys.app.loading = false) ∨ (∃ k, sys.posts = [k] ∧ sys.app.loading = true)

/-! ## The calendar and the clock

The calendar of step 2 disables the days before today, and "today" is read
from the clock at each render.  A timed session pairs the session with the
clock reading of its latest render; `tz` is the offset of local time from UTC
in milliseconds, and the clock does not run backwards. -/

/-- The expression `new Date(new Date().toDateString())` when `new Date()` is
`now`: midnight, in local time, of the day of `now`. -/
def startOfLocalDay (tz : Int) (now : Date) : Date :=
  ⟨(now.ms + tz) / msPerDay * msPerDay - tz⟩

/-- The `disabled` predicate of the calendar,
`(date) => date < new Date(new Date().toDateString())`. -/
def dateDisabled (tz : Int) (now date : Date) : Bool :=
  decide (date.ms < (startOfLocalDay tz now).ms)

/-- A session together with the clock reading of its latest render. -/
structure TimedSys where
  sys : Sys
  clock : Date
  deriving DecidableEq

/-- What happens in a timed session. -/
inductive TimedEvent where
  /-- A render at the later time `now`. -/
  | tick (now : Date)
  /-- An event of the session, on the page as last rendered. -/
  | act (e : Event)
  deriving DecidableEq

/-- One step of a timed session.  A disabled day of the calendar dispatches no
`onSelect`; every other event is handled as in `step`. -/
def timedStep (tz : Int) (ts : TimedSys) : TimedEvent → TimedSys × List Effect
  | .tick now => (if ts.clock.ms ≤ now.ms then { ts with clock := now } else ts, [])
  | .act (.selectDate (some d)) =>
    if dateDisabled tz ts.clock d then (ts, [])
    else
      let r := step ts.sys (.selectDate (some d))
      ({ ts with sys := r.1 }, r.2)
  | .act e =>
    let r := step ts.sys e
    ({ ts with sys := r.1 }, r.2)

/-- The timed session at the first render, at time `start`. -/
def TimedSys.initial (start : Date) : TimedSys := ⟨Sys.initial start, start⟩

/-- The states a timed session that began at `start` can be in. -/
inductive TimedReachable (tz : Int) (start : Date) : TimedSys → Prop where
  | init : TimedReachable tz start (TimedSys.initial start)
  | step {ts : TimedSys} (ev : TimedEvent) :
    TimedReachable tz start ts → TimedReachable tz start (timedStep tz ts ev).1

/-- The offset of Brasília time, three hours behind UTC. -/
def brasilia : Int := -10800000

/-- The instant 2025-06-10T23:59:00 in Brasília (2025-06-11T02:59:00Z). -/
def beforeMidnight : Date := ⟨1749610740000⟩

/-- The instant 2025-06-11T00:01:00 in Brasília (2025-06-11T03:01:00Z). -/
def afterMidnight : Date := ⟨1749610860000⟩

/-- The instant 2025-06-10T00:00:00 in Brasília (2025-06-10T03:00:00Z). -/
def june10Local : Date := ⟨1749524400000⟩

/-- The instant 2025-06-11T00:00:00 in Brasília (2025-06-11T03:00:00Z). -/
def june11Local : Date := ⟨1749610800000⟩

/-- The instant 2025-06-09T00:00:00 in Brasília (2025-06-09T03:00:00Z). -/
def june9Local : Date := ⟨1749438000000⟩

/-- The link between the selected date and the clock in a session that began
at `start`: the date, when set, is not earlier than the start of the day of
some moment between `start` and the latest render. -/
def DateInv (tz : Int) (start : Date) (ts : TimedSys) : Prop :=
  start.ms ≤ ts.clock.ms ∧
  ∀ d, ts.sys.app.selectedDate = some d →
    ∃ t : Date, start.ms ≤ t.ms ∧ t.ms ≤ ts.clock.ms ∧ (startOfLocalDay tz t).ms ≤ d.ms

/-- A session opened one minute before midnight and rendered again two minutes
later. -/
def overMidnight : TimedSys :=
  (timedStep brasilia (TimedSys.initial beforeMidnight) (.tick afterMidnight)).1

/-- A session opened on 10 June in which the booking page is visited and
11 June is picked in the calendar. -/
def pickedTomorrow : TimedSys :=
  (timedStep brasilia
    (timedStep brasilia (TimedSys.initial june10Local) (.act (.navigate "booking"))).1
    (.act (.selectDate (some june11Local)))).1

/-- The instant 2025-06-10T22:00:00 in Brasília (2025-06-11T01:00:00Z). -/
def lateEvening : Date := ⟨1749603600000⟩

/-! ## Sample data -/

/-- The service of the examples: a haircut of 30 minutes at 30.00. -/
def haircut : Service := ⟨"svc-1", "Haircut", "Corte de cabelo", some 3000, 30⟩

/-- The instant 2025-06-10T00:00:00Z. -/
def june10 : Date := ⟨1749513600000⟩

/-- The instant 2025-06-11T00:00:00Z. -/
def june11 : Date := ⟨1749600000000⟩

/-- A state of the booking page in which service, date, time and phone are
filled in and the name is still empty. -/
def nameMissing : AppState :=
  { AppState.initial june10 with
    currentPage := "booking"
    services := [haircut]
    selectedService := some haircut
    selectedTime := "14:00"
    clientForm := ⟨"", "119999", ""⟩ }

/-- A state of the booking page with a complete selection. -/
def readyToSubmit : AppState :=
  { AppState.initial june10 with
    currentPage := "booking"
    services := [haircut]
    availableSlots := [⟨"14:00", true⟩, ⟨"15:00", false⟩]
    selectedService := some haircut
    selectedTime := "14:00"
    clientForm := ⟨"Ana", "11999990000", ""⟩ }

/-- An appointment record as the backend returns it for `readyToSubmit`. -/
def createdAppointment : Appointment :=
  ⟨"a1b2c3d4e5f6", "svc-1", "Haircut", "Ana", "11999990000", "", "2025-06-10", "14:00", "pending"⟩

/-- A session that fills in the wizard and submits: the creation request is in
flight afterwards. -/
def bookingEvents : List Event :=
  [.navigate "booking", .servicesSettled (.resolved [haircut]),
    .slotsSettled (.resolved [⟨"14:00", true⟩, ⟨"15:00", false⟩]),
    .selectService haircut, .clickTimeSlot ⟨"14:00", true⟩,
    .changeName "Ana", .changePhone "11999990000", .submit]

/-- The session state after `bookingEvents`. -/
def inFlight : Sys := (run (Sys.initial june10) bookingEvents).1

/-- A session in which the slots of 10 June are loaded, the date is changed to
11 June, and the availability request for that day fails. -/
def staleSlotsEvents : List Event :=
  [.navigate "booking", .slotsSettled (.resolved [⟨"09:00", true⟩]),
    .selectDate (some june11), .slotsSettled .rejected]

/-! ## Properties of the submission handler -/

theorem validationFails_eq_false_iff (s : AppState) :
    validationFails s = false ↔
      s.selectedService.isSome = true ∧ s.selectedTime ≠ "" ∧ s.clientForm.name ≠ "" ∧
        s.clientForm.phone ≠ "" := by
  cases hs : s.selectedService <;> simp [validationFails, hs, and_assoc]

theorem validationFails_of_missing (s : AppState)
    (h : s.selectedService = none ∨ s.selectedTime = "" ∨ s.clientForm.name = "" ∨
      s.clientForm.phone = "") : validationFails s = true := by
  rcases h with h | h | h | h <;> simp [validationFails, h]

theorem handleBookingSubmit_begin_of_invalid (s : AppState) (h : validationFails s = true) :
    handleBookingSubmit_begin s = ⟨s, [.preventDefault, .alert requiredFieldsMessage], none⟩ := by
  simp [handleBookingSubmit_begin, h]

theorem handleBookingSubmit_begin_of_valid (s : AppState) (service : Service) (date : Date)
    (h : validationFails s = false) (hs : s.selectedService = some service)
    (hd : s.selectedDate = some date) :
    handleBookingSubmit_begin s =
      ⟨{ s with loading := true },
        [.preventDefault,
          .request (.postAppointment
            ⟨service.id, s.clientForm.name, s.clientForm.phone, s.clientForm.email,
              toISODateString date, s.selectedTime⟩)],
        some ⟨⟨service.id, s.clientForm.name, s.clientForm.phone, s.clientForm.email,
          toISODateString date, s.selectedTime⟩, service, date⟩⟩ := by
  simp [handleBookingSubmit_begin, h, hs, hd]

theorem handleBookingSubmit_begin_of_no_date (s : AppState) (h : validationFails s = false)
    (hd : s.selectedDate = none) :
    handleBookingSubmit_begin s =
      ⟨{ s with loading := false },
        [.preventDefault, .consoleError "Erro ao criar agendamento:",
          .alert submissionFailedMessage], none⟩ := by
  cases hs : s.selectedService <;> simp [handleBookingSubmit_begin, h, hs, hd]

theorem creationRequests_settle (k : PendingSubmit) (s : AppState) (o : Outcome Appointment) :
    creationRequests (handleBookingSubmit_settle k s o).2 = [] := by
  cases o <;> simp [handleBookingSubmit_settle, fetchAvailableSlots_begin, creationRequests]

theorem creationRequests_append (a b : List Effect) :
    creationRequests (a ++ b) = creationRequests a ++ creationRequests b := by
  simp [creationRequests, List.filterMap_append]

theorem handleBookingSubmit_of_valid (s : AppState) (service : Service) (date : Date)
    (o : Outcome Appointment) (h : validationFails s = false)
    (hs : s.selectedService = some service) (hd : s.selectedDate = some date) :
    handleBookingSubmit s o =
      ((handleBookingSubmit_settle
          ⟨⟨service.id, s.clientForm.name, s.clientForm.phone, s.clientForm.email,
            toISODateString date, s.selectedTime⟩, service, date⟩
          { s with loading := true } o).1,
        [.preventDefault,
          .request (.postAppointment
            ⟨service.id, s.clientForm.name, s.clientForm.phone, s.clientForm.email,
              toISODateString date, s.selectedTime⟩)] ++
        (handleBookingSubmit_settle
          ⟨⟨service.id, s.clientForm.name, s.clientForm.phone, s.clientForm.email,
            toISODateString date, s.selectedTime⟩, service, date⟩
          { s with loading := true } o).2) := by
  unfold handleBookingSubmit
  rw [handleBookingSubmit_begin_of_valid s service date h hs hd]

theorem creationRequests_of_valid (s : AppState) (service : Service) (date : Date)
    (o : Outcome Appointment) (h : validationFails s = false)
    (hs : s.selectedService = some service) (hd : s.selectedDate = some date) :
    creationRequests (handleBookingSubmit s o).2 =
      [⟨service.id, s.clientForm.name, s.clientForm.phone, s.clientForm.email,
        toISODateString date, s.selectedTime⟩] := by
  rw [handleBookingSubmit_of_valid s service date o h hs hd]
  simp only [creationRequests_append, creationRequests_settle]
  simp [creationRequests]

/-- C1: when the selected service is absent, or the selected time, the client
name or the client phone is the empty string, `handleBookingSubmit` returns the
state it was given, its only visible effect is the `alert` with the
required-fields text, no request at all is issued (so no creation request), no
continuation is left waiting, and that text differs from the one shown when the
creation request fails. -/
theorem handleBookingSubmit_validation_error (s : AppState) (o : Outcome Appointment)
    (h : s.selectedService = none ∨ s.selectedTime = "" ∨ s.clientForm.name = "" ∨
      s.clientForm.phone = "") :
    (handleBookingSubmit s o).1 = s ∧
    (handleBookingSubmit s o).2 = [.preventDefault, .alert requiredFieldsMessage] ∧
    creationRequests (handleBookingSubmit s o).2 = [] ∧
    requestsOf (handleBookingSubmit s o).2 = [] ∧
    (handleBookingSubmit_begin s).pending = none ∧
    requiredFieldsMessage ≠ submissionFailedMessage := by
  have hb := handleBookingSubmit_begin_of_invalid s (validationFails_of_missing s h)
  refine ⟨?_, ?_, ?_, ?_, ?_, by decide⟩ <;>
    simp [handleBookingSubmit, hb, creationRequests, requestsOf]

theorem handleBookingSubmit_validation_error_witness :
    (handleBookingSubmit nameMissing .rejected).1 = nameMissing ∧
    (handleBookingSubmit nameMissing .rejected).2 =
      [.preventDefault, .alert requiredFieldsMessage] ∧
    creationRequests (handleBookingSubmit nameMissing .rejected).2 = [] ∧
    requestsOf (handleBookingSubmit nameMissing .rejected).2 = [] ∧
    (handleBookingSubmit_begin nameMissing).pending = none ∧
    requiredFieldsMessage ≠ submissionFailedMessage :=
  handleBookingSubmit_validation_error nameMissing .rejected (Or.inr (Or.inr (Or.inl rfl)))

/-- C2: a call of `handleBookingSubmit` issues the creation request if and only
if service, date, time, client name and client phone are all set and non-empty,
and then it issues exactly one; the selection Haircut / 2025-06-10 / 14:00 with
an empty name and phone 119999 issues none, and neither does any state whose
date is unset. -/
theorem creation_request_iff_complete (s : AppState) (o : Outcome Appointment) :
    (creationRequests (handleBookingSubmit s o).2 ≠ [] ↔
      s.selectedService.isSome = true ∧ s.selectedDate.isSome = true ∧ s.selectedTime ≠ "" ∧
        s.clientForm.name ≠ "" ∧ s.clientForm.phone ≠ "") ∧
    (creationRequests (handleBookingSubmit s o).2).length ≤ 1 ∧
    creationRequests (handleBookingSubmit
      { s with
        selectedService := some haircut
        selectedDate := some june10
        selectedTime := "14:00"
        clientForm := ⟨"", "119999", s.clientForm.email⟩ } o).2 = [] ∧
    creationRequests (handleBookingSubmit { s with selectedDate := none } o).2 = [] := by
  have key : ∀ t : AppState,
      (creationRequests (handleBookingSubmit t o).2 ≠ [] ↔
        t.selectedService.isSome = true ∧ t.selectedDate.isSome = true ∧ t.selectedTime ≠ "" ∧
          t.clientForm.name ≠ "" ∧ t.clientForm.phone ≠ "") ∧
      (creationRequests (handleBookingSubmit t o).2).length ≤ 1 := by
    intro t
    cases hv : validationFails t
    · have hv2 := (validationFails_eq_false_iff t).1 hv
      cases hd : t.selectedDate with
      | none =>
        have hb := handleBookingSubmit_begin_of_no_date t hv hd
        simp [handleBookingSubmit, hb, creationRequests]
      | some date =>
        obtain ⟨service, hs⟩ := Option.isSome_iff_exists.1 hv2.1
        rw [creationRequests_of_valid t service date o hv hs hd]
        simp [hs, hv2.2.1, hv2.2.2.1, hv2.2.2.2]
    · have hb := handleBookingSubmit_begin_of_invalid t hv
      have hn : ¬ (t.selectedService.isSome = true ∧ t.selectedTime ≠ "" ∧
          t.clientForm.name ≠ "" ∧ t.clientForm.phone ≠ "") := by
        intro hc
        rw [← validationFails_eq_false_iff] at hc
        simp [hc] at hv
      simp only [handleBookingSubmit, hb, creationRequests]
      constructor
      · constructor
        · intro hne
          simp at hne
        · intro hc
          exact absurd ⟨hc.1, hc.2.2⟩ hn
      · simp
  refine ⟨(key s).1, (key s).2, ?_, ?_⟩
  · have h := (key { s with
        selectedService := some haircut
        selectedDate := some june10
        selectedTime := "14:00"
        clientForm := ⟨"", "119999", s.clientForm.email⟩ }).1
    by_contra hne
    have := h.1 hne
    simp at this
  · have h := (key { s with selectedDate := none }).1
    by_contra hne
    have := h.1 hne
    simp at this

theorem handleBookingSubmit_rejected_of_valid (s : AppState) (service : Service) (date : Date)
    (h : validationFails s = false) (hs : s.selectedService = some service)
    (hd : s.selectedDate = some date) :
    handleBookingSubmit s .rejected =
      ({ s with loading := false },
        [.preventDefault,
          .request (.postAppointment
            ⟨service.id, s.clientForm.name, s.clientForm.phone, s.clientForm.email,
              toISODateString date, s.selectedTime⟩),
          .consoleError "Erro ao criar agendamento:", .alert submissionFailedMessage]) := by
  rw [handleBookingSubmit_of_valid s service date .rejected h hs hd]
  simp [handleBookingSubmit_settle]

theorem selection_handleBookingSubmit_rejected (s : AppState) :
    (handleBookingSubmit s .rejected).1.selection = s.selection ∧
      validationFails (handleBookingSubmit s .rejected).1 = validationFails s := by
  cases hv : validationFails s
  · cases hd : s.selectedDate with
    | none =>
      have hb := handleBookingSubmit_begin_of_no_date s hv hd
      simp [handleBookingSubmit, hb, AppState.selection, validationFails] at hv ⊢
      exact hv
    | some date =>
      obtain ⟨service, hs⟩ :=
        Option.isSome_iff_exists.1 ((validationFails_eq_false_iff s).1 hv).1
      rw [handleBookingSubmit_rejected_of_valid s service date hv hs hd]
      simp [AppState.selection, validationFails] at hv ⊢
      exact hv
  · have hb := handleBookingSubmit_begin_of_invalid s hv
    simp [handleBookingSubmit, hb, hv]

theorem selection_iterate_rejected (n : Nat) (s : AppState) :
    (Nat.iterate (fun t => (handleBookingSubmit t .rejected).1) n s).selection = s.selection := by
  induction n generalizing s with
  | zero => rfl
  | succ n ih =>
    rw [Function.iterate_succ_apply, ih]
    exact (selection_handleBookingSubmit_rejected s).1

/-- C3: for a selection that passes validation (with its date set, so that the
creation request is issued) and any appointment record returned by the
backend, the state after `handleBookingSubmit` has no service, an empty time,
empty client name, phone and e-mail, and the same date as before; the
continuation has this effect on whatever state is held when the response
arrives. -/
theorem handleBookingSubmit_success_clears (s : AppState) (date : Date) (data : Appointment)
    (hv : validationFails s = false) (hd : s.selectedDate = some date) :
    (handleBookingSubmit s (.resolved data)).1.selectedService = none ∧
    (handleBookingSubmit s (.resolved data)).1.selectedTime = "" ∧
    (handleBookingSubmit s (.resolved data)).1.clientForm = ⟨"", "", ""⟩ ∧
    (handleBookingSubmit s (.resolved data)).1.selectedDate = some date ∧
    ∀ (k : PendingSubmit) (t : AppState),
      (handleBookingSubmit_settle k t (.resolved data)).1.selection =
        ⟨none, t.selectedDate, "", ⟨"", "", ""⟩⟩ := by
  obtain ⟨service, hs⟩ := Option.isSome_iff_exists.1 ((validationFails_eq_false_iff s).1 hv).1
  rw [handleBookingSubmit_of_valid s service date (.resolved data) hv hs hd]
  simp [handleBookingSubmit_settle, AppState.selection, hd]

theorem handleBookingSubmit_success_clears_witness :
    validationFails readyToSubmit = false ∧
    readyToSubmit.selection = ⟨some haircut, some june10, "14:00", ⟨"Ana", "11999990000", ""⟩⟩ ∧
    toISODateString june10 = "2025-06-10" ∧
    (handleBookingSubmit readyToSubmit (.resolved createdAppointment)).1.selection =
      ⟨none, some june10, "", ⟨"", "", ""⟩⟩ := by
  have h := handleBookingSubmit_success_clears readyToSubmit june10 createdAppointment
    (by decide) rfl
  refine ⟨by decide, rfl, by decide, ?_⟩
  simp only [AppState.selection, h.1, h.2.1, h.2.2.1, h.2.2.2.1]

/-- C4: for a selection that passes validation (with its date set, so that the
creation request is issued), a failed creation request leaves the state as it
was except that `loading` is false, after logging and showing the retry
message; hence service, date, time and client fields are those held before the
call, and after any number of failed submissions in a row the selection is
still the one held before the first. -/
theorem handleBookingSubmit_failure_preserves (s : AppState) (date : Date) (n : Nat)
    (hv : validationFails s = false) (hd : s.selectedDate = some date) :
    (handleBookingSubmit s .rejected).1 = { s with loading := false } ∧
    (creationRequests (handleBookingSubmit s .rejected).2).length = 1 ∧
    (handleBookingSubmit s .rejected).1.selection = s.selection ∧
    (Nat.iterate (fun t => (handleBookingSubmit t .rejected).1) n s).selection = s.selection ∧
    ∀ (k : PendingSubmit) (t : AppState),
      (handleBookingSubmit_settle k t .rejected).1.selection = t.selection := by
  obtain ⟨service, hs⟩ := Option.isSome_iff_exists.1 ((validationFails_eq_false_iff s).1 hv).1
  refine ⟨?_, ?_, (selection_handleBookingSubmit_rejected s).1, selection_iterate_rejected n s, ?_⟩
  · rw [handleBookingSubmit_rejected_of_valid s service date hv hs hd]
  · rw [creationRequests_of_valid s service date .rejected hv hs hd]
    rfl
  · intro k t
    rfl

theorem handleBookingSubmit_failure_preserves_witness :
    validationFails readyToSubmit = false ∧
    (handleBookingSubmit readyToSubmit .rejected).1 = readyToSubmit ∧
    (Nat.iterate (fun t => (handleBookingSubmit t .rejected).1) 3 readyToSubmit).selection =
      ⟨some haircut, some june10, "14:00", ⟨"Ana", "11999990000", ""⟩⟩ := by
  have h := handleBookingSubmit_failure_preserves readyToSubmit june10 3 (by decide) rfl
  exact ⟨by decide, h.1, h.2.2.2.1⟩

/-! ## The in-flight flag -/

theorem creationRequests_selectedDateEffect (s : AppState) :
    creationRequests (selectedDateEffect s) = [] := by
  unfold selectedDateEffect
  cases s.selectedDate <;> simp [fetchAvailableSlots_begin, creationRequests]

/-- While `loading` is up, an event other than the settling of a creation
request changes neither the flag nor the requests in flight, and issues no
creation request. -/
theorem step_while_loading (sys : Sys) (e : Event) (hl : sys.app.loading = true)
    (he : e.isPostSettled = false) :
    (step sys e).1.posts = sys.posts ∧ (step sys e).1.app.loading = true ∧
      creationRequests (step sys e).2 = [] := by
  cases e with
  | navigate page =>
    refine ⟨rfl, hl, ?_⟩
    simp only [step]
    split <;> simp [creationRequests]
  | bookService service =>
    simp only [step]
    split <;> simp [creationRequests, hl]
  | selectService service =>
    simp only [step]
    split <;> simp [creationRequests, hl, selectService]
  | selectDate d =>
    simp only [step]
    split
    · refine ⟨rfl, hl, ?_⟩
      simp only [selectDate]
      split
      · rfl
      · exact creationRequests_selectedDateEffect _
    · exact ⟨rfl, hl, rfl⟩
  | clickTimeSlot slot =>
    simp only [step]
    split
    · refine ⟨rfl, ?_, rfl⟩
      simp only [clickTimeSlot]
      split <;> simp [hl]
    · exact ⟨rfl, hl, rfl⟩
  | changeName value =>
    simp only [step]
    split <;> simp [creationRequests, hl]
  | changePhone value =>
    simp only [step]
    split <;> simp [creationRequests, hl]
  | changeEmail value =>
    simp only [step]
    split <;> simp [creationRequests, hl]
  | submit => simp [step, submitDisabled, hl, creationRequests]
  | setShowConfirmation value =>
    simp only [step]
    split <;> simp [creationRequests, hl]
  | servicesSettled o =>
    cases o <;> simp [step, fetchServices_settle, creationRequests, hl]
  | slotsSettled o =>
    cases o <;> simp [step, fetchAvailableSlots_settle, creationRequests, hl]
  | appointmentsSettled o =>
    cases o <;> simp [step, fetchAppointments_settle, creationRequests, hl]
  | postSettled i o => simp [Event.isPostSettled] at he

theorem run_while_loading (evs : List Event) (sys : Sys) (hl : sys.app.loading = true)
    (he : ∀ e ∈ evs, e.isPostSettled = false) :
    (run sys evs).1.posts = sys.posts ∧ (run sys evs).1.app.loading = true ∧
      creationRequests (run sys evs).2 = [] := by
  induction evs generalizing sys with
  | nil => exact ⟨rfl, hl, rfl⟩
  | cons e es ih =>
    have h1 := step_while_loading sys e hl (he e (List.mem_cons_self e es))
    have h2 := ih (step sys e).1 h1.2.1 (fun x hx => he x (List.mem_cons_of_mem e hx))
    simp only [run, creationRequests_append]
    exact ⟨h2.1.trans h1.1, h2.2.1, by rw [h1.2.2, h2.2.2]; rfl⟩

theorem flagInv_step (sys : Sys) (e : Event) (h : FlagInv sys) : FlagInv (step sys e).1 := by
  by_cases he : e.isPostSettled = true
  · cases e with
    | postSettled i o =>
      rcases h with ⟨hp, hl⟩ | ⟨k, hp, hl⟩
      · left
        simp [step, hp, hl]
      · cases i with
        | zero =>
          left
          cases o <;> simp [step, hp, handleBookingSubmit_settle]
        | succ j =>
          right
          exact ⟨k, by simp [step, hp], by simp [step, hp, hl]⟩
    | _ => simp [Event.isPostSettled] at he
  · have he2 : e.isPostSettled = false := by simpa using he
    rcases h with ⟨hp, hl⟩ | ⟨k, hp, hl⟩
    · cases e with
      | submit =>
        simp only [step]
        split
        · cases hv : validationFails sys.app
          · cases hd : sys.app.selectedDate with
            | none =>
              left
              simp [handleBookingSubmit_begin_of_no_date sys.app hv hd, hp]
            | some date =>
              obtain ⟨service, hs⟩ :=
                Option.isSome_iff_exists.1 ((validationFails_eq_false_iff sys.app).1 hv).1
              right
              rw [handleBookingSubmit_begin_of_valid sys.app service date hv hs hd]
              exact ⟨⟨⟨service.id, sys.app.clientForm.name, sys.app.clientForm.phone,
                sys.app.clientForm.email, toISODateString date, sys.app.selectedTime⟩,
                service, date⟩, by simp [hp], rfl⟩
          · left
            simp [handleBookingSubmit_begin_of_invalid sys.app hv, hp, hl]
        · exact Or.inl ⟨hp, hl⟩
      | postSettled i o => simp [Event.isPostSettled] at he2
      | navigate page => exact Or.inl ⟨hp, hl⟩
      | bookService service =>
        left
        simp only [step]
        split <;> simp [hp, hl]
      | selectService service =>
        left
        simp only [step]
        split <;> simp [hp, hl, selectService]
      | selectDate d =>
        left
        simp only [step]
        split <;> simp [hp, hl, selectDate]
      | clickTimeSlot slot =>
        left
        simp only [step, clickTimeSlot]
        split
        · split <;> simp [hp, hl]
        · simp [hp, hl]
      | changeName value =>
        left
        simp only [step]
        split <;> simp [hp, hl]
      | changePhone value =>
        left
        simp only [step]
        split <;> simp [hp, hl]
      | changeEmail value =>
        left
        simp only [step]
        split <;> simp [hp, hl]
      | setShowConfirmation value =>
        left
        simp only [step]
        split <;> simp [hp, hl]
      | servicesSettled o =>
        left
        cases o <;> simp [step, fetchServices_settle, hp, hl]
      | slotsSettled o =>
        left
        cases o <;> simp [step, fetchAvailableSlots_settle, hp, hl]
      | appointmentsSettled o =>
        left
        cases o <;> simp [step, fetchAppointments_settle, hp, hl]
    · have h1 := step_while_loading sys e hl he2
      exact Or.inr ⟨k, by rw [h1.1, hp], h1.2.1⟩

theorem flagInv_of_reachable {sys : Sys} (h : Reachable sys) : FlagInv sys := by
  induction h with
  | init now => exact Or.inl ⟨rfl, rfl⟩
  | step e _ ih => exact flagInv_step _ e ih

theorem reachable_run {sys : Sys} (h : Reachable sys) (evs : List Event) :
    Reachable (run sys evs).1 := by
  induction evs generalizing sys with
  | nil => exact h
  | cons e es ih => exact ih (Reachable.step e h)

/-- C5: in every state a session can reach, at most one creation request is in
flight, and one is in flight exactly when `loading` is true.  While `loading`
is true the submit button is disabled, so a submit event leaves the session as
it is and issues nothing, and no sequence of events other than the settling of
the request in flight issues a creation request or adds one to those in
flight. -/
theorem no_second_creation_request (sys : Sys) (hr : Reachable sys) :
    sys.posts.length ≤ 1 ∧
    (sys.app.loading = true ↔ sys.posts ≠ []) ∧
    (sys.app.loading = true →
      step sys .submit = (sys, []) ∧
      ∀ evs : List Event, (∀ e ∈ evs, e.isPostSettled = false) →
        creationRequests (run sys evs).2 = [] ∧ (run sys evs).1.posts = sys.posts) := by
  have hinv := flagInv_of_reachable hr
  refine ⟨?_, ?_, ?_⟩
  · rcases hinv with ⟨hp, _⟩ | ⟨k, hp, _⟩ <;> simp [hp]
  · rcases hinv with ⟨hp, hl⟩ | ⟨k, hp, hl⟩ <;> simp [hp, hl]
  · intro hl
    refine ⟨by simp [step, submitDisabled, hl], ?_⟩
    intro evs he
    have h := run_while_loading evs sys hl he
    exact ⟨h.2.2, h.1⟩

theorem no_second_creation_request_witness :
    Reachable inFlight ∧ inFlight.app.loading = true ∧ inFlight.posts.length = 1 ∧
    step inFlight .submit = (inFlight, []) ∧
    creationRequests (run inFlight [.submit, .changeName "Ana Lima", .submit]).2 = [] ∧
    (creationRequests (run (Sys.initial june10) (bookingEvents ++ [.submit, .submit])).2).length
      = 1 := by
  have hr : Reachable inFlight := reachable_run (Reachable.init june10) bookingEvents
  have hl : inFlight.app.loading = true := by decide
  have h := no_second_creation_request inFlight hr
  refine ⟨hr, hl, by decide, (h.2.2 hl).1, ?_, by decide⟩
  exact ((h.2.2 hl).2 [.submit, .changeName "Ana Lima", .submit] (by decide)).1

/-! ## Time slots -/

/-- C6: for a slot of the held slot list with `available = false`, a click on
its button changes nothing: the selected time, and in fact the whole state, is
the one held before, also as an event of the session; the button of such a
slot is rendered whenever step 3 is. -/
theorem unavailable_slot_not_selected (s : AppState) (slot : TimeSlot)
    (hm : slot ∈ s.availableSlots) (ha : slot.available = false) :
    (clickTimeSlot s slot).selectedTime = s.selectedTime ∧
    clickTimeSlot s slot = s ∧
    (∀ posts : List PendingSubmit,
      step ⟨s, posts⟩ (.clickTimeSlot slot) = (⟨s, posts⟩, [])) ∧
    timeSlotShown s slot = (bookingPageShown s && s.selectedDate.isSome) := by
  have hc : clickTimeSlot s slot = s := by simp [clickTimeSlot, timeSlotDisabled, ha]
  refine ⟨by rw [hc], hc, ?_, ?_⟩
  · intro posts
    simp only [step, hc]
    split <;> rfl
  · simp [timeSlotShown, hm]

theorem unavailable_slot_not_selected_witness :
    (⟨"15:00", false⟩ : TimeSlot) ∈ readyToSubmit.availableSlots ∧
    (clickTimeSlot readyToSubmit ⟨"15:00", false⟩).selectedTime = "14:00" ∧
    timeSlotShown readyToSubmit ⟨"15:00", false⟩ = true :=
  ⟨by decide,
    (unavailable_slot_not_selected readyToSubmit ⟨"15:00", false⟩ (by decide) rfl).1,
    by decide⟩

/-! ## Failed fetches -/

/-- C7, as stated, fails: after a failed availability fetch the held slot list
is the non-empty list of the earlier date, both for the fetcher run on a state
holding that list and for the session `staleSlotsEvents`. -/
theorem failed_fetch_keeps_previous_slots :
    (fetchAvailableSlots { AppState.initial june11 with availableSlots := [⟨"09:00", true⟩] }
      .rejected).1.availableSlots = [⟨"09:00", true⟩] ∧
    (run (Sys.initial june10) staleSlotsEvents).1.app.availableSlots = [⟨"09:00", true⟩] ∧
    (run (Sys.initial june10) staleSlotsEvents).1.app.selectedDate = some june11 ∧
    (run (Sys.initial june10) staleSlotsEvents).1.app.availableSlots ≠ [] := by
  decide

/-- C7, amended: a failed fetch leaves the state, and so the held collection,
exactly as it was, for the slot list, the service catalog and the appointment
list alike; the collection is therefore empty afterwards if and only if it was
empty before. -/
theorem failed_fetch_leaves_state (s : AppState) :
    (fetchAvailableSlots s .rejected).1 = s ∧
    (fetchServices s .rejected).1 = s ∧
    (fetchAppointments s .rejected).1 = s ∧
    ((fetchAvailableSlots s .rejected).1.availableSlots = [] ↔ s.availableSlots = []) ∧
    ((fetchServices s .rejected).1.services = [] ↔ s.services = []) ∧
    ((fetchAppointments s .rejected).1.appointments = [] ↔ s.appointments = []) := by
  have h1 : (fetchAvailableSlots s .rejected).1 = s := by
    unfold fetchAvailableSlots
    cases s.selectedDate <;> rfl
  have h2 : (fetchServices s .rejected).1 = s := rfl
  have h3 : (fetchAppointments s .rejected).1 = s := rfl
  refine ⟨h1, h2, h3, ?_, ?_, ?_⟩
  · rw [h1]
  · rw [h2]
  · rw [h3]

/-! ## The admin view -/

/-- C8: the admin view shows the appointments whose `date` equals today's
`yyyy-mm-dd` string, each as often as it occurs and in the original order, and
it shows the message "Nenhum agendamento para hoje" exactly when there is no
such appointment; of two appointments dated 2025-06-10 and 2025-06-11, on
2025-06-10 exactly the first is shown. -/
theorem adminAppointmentsView_shows_today (appointments : List Appointment) (now : Date)
    (a b : Appointment) :
    (adminAppointmentsView appointments now).shown =
      appointments.filter (fun apt => decide (apt.date = toISODateString now)) ∧
    ((adminAppointmentsView appointments now).shown).Sublist appointments ∧
    (∀ apt, apt ∈ (adminAppointmentsView appointments now).shown ↔
      apt ∈ appointments ∧ apt.date = toISODateString now) ∧
    (adminAppointmentsView appointments now = .noneToday ↔
      ∀ apt ∈ appointments, apt.date ≠ toISODateString now) ∧
    adminAppointmentsView [{ a with date := "2025-06-10" }, { b with date := "2025-06-11" }]
      june10 = .cards [{ a with date := "2025-06-10" }] := by
  have hf : (fun apt : Appointment => apt.date == toISODateString now) =
      (fun apt => decide (apt.date = toISODateString now)) := by
    funext apt
    rfl
  have hshown : (adminAppointmentsView appointments now).shown =
      appointments.filter (fun apt => decide (apt.date = toISODateString now)) := by
    unfold adminAppointmentsView
    rw [hf]
    split
    · rename_i h
      have h0 : (appointments.filter (fun apt => decide (apt.date = toISODateString now))) = [] :=
        List.length_eq_zero.1 (by simpa using h)
      rw [h0]
      rfl
    · rfl
  refine ⟨hshown, ?_, ?_, ?_, ?_⟩
  · rw [hshown]
    exact List.filter_sublist appointments
  · intro apt
    rw [hshown]
    simp [List.mem_filter]
  · unfold adminAppointmentsView
    rw [hf]
    split
    · rename_i h
      have h0 : (appointments.filter (fun apt => decide (apt.date = toISODateString now))) = [] :=
        List.length_eq_zero.1 (by simpa using h)
      refine ⟨fun _ => ?_, fun _ => rfl⟩
      intro apt hm hd
      have : apt ∈ appointments.filter (fun apt => decide (apt.date = toISODateString now)) := by
        simp [List.mem_filter, hm, hd]
      rw [h0] at this
      simp at this
    · rename_i h
      refine ⟨fun hc => by simp at hc, fun hall => ?_⟩
      exfalso
      apply h
      have h0 : (appointments.filter (fun apt => decide (apt.date = toISODateString now))) = [] := by
        rw [List.filter_eq_nil_iff]
        intro apt hm
        simpa using hall apt hm
      rw [h0]
      rfl
  · have hd : toISODateString june10 = "2025-06-10" := by decide
    simp [adminAppointmentsView, hd]

/-! ## The confirmation dialog -/

/-- The value of the price expression of the dialog: the price of the
referenced service when the service and its price are present, and 0 when the
service is absent or carries no price.  The payload stored by a successful
submission references the service selected at submission. -/
theorem confirmationPrice_value (c : ConfirmationData) (k : PendingSubmit) (t : AppState)
    (data : Appointment) :
    confirmationPrice c = ((c.service.bind fun service => service.price).getD 0) ∧
    confirmationPrice { c with service := none } = 0 ∧
    (∀ service : Service,
      confirmationPrice { c with service := some service } = service.price.getD 0) ∧
    (handleBookingSubmit_settle k t (.resolved data)).1.confirmationData =
      some ⟨data, some k.selectedService⟩ ∧
    ((handleBookingSubmit_settle k t (.resolved data)).1.confirmationData.map confirmationPrice) =
      some (k.selectedService.price.getD 0) := by
  have key : ∀ c : ConfirmationData,
      confirmationPrice c = ((c.service.bind fun service => service.price).getD 0) := by
    intro c
    unfold confirmationPrice
    cases hs : c.service with
    | none => rfl
    | some service =>
      cases hp : service.price with
      | none => simp [hp]
      | some p =>
        by_cases h0 : p = 0 <;> simp [hp, h0]
  refine ⟨key c, rfl, ?_, rfl, ?_⟩
  · intro service
    rw [key]
    rfl
  · simp only [handleBookingSubmit_settle, Option.map_some', key]
    rfl

/-- C9: the confirmation dialog does not get as far as the price.  For every
payload, with or without a service, its render throws the `TypeError` of
`new Intl.DateFormat` in `formatDate`, which is evaluated before the price
expression, so no price is handed to `formatPrice`.  This holds in particular
for the payload that the successful submission of the Haircut example stores,
whose price expression has the value 30.00 and whose currency formatter would
have accepted it; only without a payload does the block render.  The date line
of the booking page throws in the same way whenever a date is selected. -/
theorem confirmationDetails_throws (env : Env) (c : ConfirmationData) (date : Date)
    (s : AppState) :
    confirmationDetails env (some c) = .error "TypeError: Intl.DateFormat is not a constructor" ∧
    (handleBookingSubmit readyToSubmit (.resolved createdAppointment)).1.confirmationData =
      some ⟨createdAppointment, some haircut⟩ ∧
    selectedDateLine env { s with selectedDate := some date } =
      .error "TypeError: Intl.DateFormat is not a constructor" ∧
    confirmationDetails env (some ⟨createdAppointment, some haircut⟩) =
      .error "TypeError: Intl.DateFormat is not a constructor" ∧
    confirmationDetails env (some ⟨createdAppointment, none⟩) =
      .error "TypeError: Intl.DateFormat is not a constructor" ∧
    formatDate env date = .error "TypeError: Intl.DateFormat is not a constructor" ∧
    confirmationPrice ⟨createdAppointment, some haircut⟩ = 3000 ∧
    formatPrice env 3000 = .ok (env.numberFormat 3000) ∧
    confirmationDetails env none = .ok none := by
  have hd : ∀ d : Date,
      formatDate env d = .error "TypeError: Intl.DateFormat is not a constructor" := by
    intro d
    have hc : intlConstructors.contains "DateFormat" = false := by decide
    have hm : notAConstructor "DateFormat" = "TypeError: Intl.DateFormat is not a constructor" := by
      decide
    have hn : newIntl "DateFormat" = .error "TypeError: Intl.DateFormat is not a constructor" := by
      unfold newIntl
      rw [hc, hm]
      rfl
    simp only [formatDate, hn]
  have hp : newIntl "NumberFormat" = .ok () := by
    have hc : intlConstructors.contains "NumberFormat" = true := by decide
    unfold newIntl
    rw [hc]
    rfl
  have hall : ∀ c : ConfirmationData,
      confirmationDetails env (some c) =
        .error "TypeError: Intl.DateFormat is not a constructor" := by
    intro c
    simp only [confirmationDetails, hd]
  refine ⟨hall c, by decide, ?_, hall _, hall _, hd date, by decide, ?_, rfl⟩
  · simp only [selectedDateLine, hd]
  · simp only [formatPrice, hp]

/-! ## Date changes -/

/-- C10, as stated, fails: a session opened at 22:00 on 10 June in Brasília
holds an instant that renders as 2025-06-11; when 11 June is picked in the
calendar the date changes to a different instant, and the one availability
request that follows is addressed to 2025-06-11, which is the address of the
date held before as well. -/
theorem date_change_same_day_request :
    lateEvening ≠ june11Local ∧
    (AppState.initial lateEvening).selectedDate = some lateEvening ∧
    toISODateString lateEvening = "2025-06-11" ∧
    toISODateString june11Local = "2025-06-11" ∧
    requestsOf (selectDate (AppState.initial lateEvening) (some june11Local)).2 =
      [.getAvailableSlots (toISODateString lateEvening)] ∧
    Request.getAvailableSlots (toISODateString lateEvening) ∈
      requestsOf (selectDate (AppState.initial lateEvening) (some june11Local)).2 ∧
    requestsOf (run (Sys.initial lateEvening)
      [.navigate "booking", .selectDate (some june11Local)]).2 =
      [.getAvailableSlots (toISODateString lateEvening)] := by
  decide


/-- C10, amended: when the selected date changes from `D1` to a different `D2`,
the only effect is one availability request, addressed to the `yyyy-mm-dd`
rendering of `D2`; it is not the request for `D1` whenever the two dates render
to different days.  When an availability request succeeds the held slot list becomes the
response list, whatever was held before, so every slot held afterwards is one
of the response. -/
theorem date_change_refetches (s : AppState) (D1 D2 : Date) (data : List TimeSlot)
    (h1 : s.selectedDate = some D1) (hne : D1 ≠ D2) :
    (selectDate s (some D2)).1 = { s with selectedDate := some D2 } ∧
    (selectDate s (some D2)).2 = [.request (.getAvailableSlots (toISODateString D2))] ∧
    requestsOf (selectDate s (some D2)).2 = [.getAvailableSlots (toISODateString D2)] ∧
    (toISODateString D1 ≠ toISODateString D2 →
      Request.getAvailableSlots (toISODateString D1) ∉ requestsOf (selectDate s (some D2)).2) ∧
    (fetchAvailableSlots (selectDate s (some D2)).1 (.resolved data)).1.availableSlots = data ∧
    (∀ t : AppState, (fetchAvailableSlots_settle t (.resolved data)).1.availableSlots = data) ∧
    ∀ slot ∈ (fetchAvailableSlots (selectDate s (some D2)).1 (.resolved data)).1.availableSlots,
      slot ∈ data := by
  have he : (selectDate s (some D2)).2 =
      [.request (.getAvailableSlots (toISODateString D2))] := by
    simp [selectDate, h1, hne, selectedDateEffect, fetchAvailableSlots_begin]
  have hf : (fetchAvailableSlots (selectDate s (some D2)).1 (.resolved data)).1.availableSlots
      = data := by
    simp [fetchAvailableSlots, selectDate, fetchAvailableSlots_settle]
  refine ⟨rfl, he, ?_, ?_, hf, fun t => rfl, ?_⟩
  · rw [he]
    rfl
  · intro hs
    rw [he]
    simp [requestsOf]
    exact hs
  · intro slot hm
    rw [hf] at hm
    exact hm

theorem date_change_refetches_witness :
    readyToSubmit.selectedDate = some june10 ∧ june10 ≠ june11 ∧
    toISODateString june11 = "2025-06-11" ∧
    requestsOf (selectDate readyToSubmit (some june11)).2 = [.getAvailableSlots "2025-06-11"] ∧
    (fetchAvailableSlots (selectDate readyToSubmit (some june11)).1
      (.resolved [⟨"10:00", true⟩])).1.availableSlots = [⟨"10:00", true⟩] := by
  have h := date_change_refetches readyToSubmit june10 june11 [⟨"10:00", true⟩] rfl (by decide)
  have hd : toISODateString june11 = "2025-06-11" := by decide
  refine ⟨rfl, by decide, hd, ?_, h.2.2.2.2.1⟩
  rw [← hd]
  exact h.2.2.1

/-! ## Revisiting earlier steps -/

/-- C11: selecting a service, on the booking page or from the services page,
leaves date, time and client details as they were; changing the date and then
replacing the slot list by the response (or keeping it, when the request
fails) leaves service, time and client details as they were, whatever the new
list contains.  In particular a selected time of 14:00 stays selected, and the
client form stays open, when the new list offers 14:00 as unavailable or
offers no slot at all. -/
theorem revisiting_keeps_later_steps (s : AppState) (posts : List PendingSubmit)
    (service : Service) (d : Option Date) (o : Outcome (List TimeSlot)) :
    selectService s service = { s with selectedService := some service } ∧
    ((step ⟨s, posts⟩ (.selectService service)).1.app.selectedDate = s.selectedDate ∧
      (step ⟨s, posts⟩ (.selectService service)).1.app.selectedTime = s.selectedTime ∧
      (step ⟨s, posts⟩ (.selectService service)).1.app.clientForm = s.clientForm) ∧
    ((step ⟨s, posts⟩ (.bookService service)).1.app.selectedDate = s.selectedDate ∧
      (step ⟨s, posts⟩ (.bookService service)).1.app.selectedTime = s.selectedTime ∧
      (step ⟨s, posts⟩ (.bookService service)).1.app.clientForm = s.clientForm) ∧
    (fetchAvailableSlots_settle (selectDate s d).1 o).1 =
      { (fetchAvailableSlots_settle s o).1 with selectedDate := d } ∧
    ((run ⟨s, posts⟩ [.selectDate d, .slotsSettled o]).1.app.selectedService
        = s.selectedService ∧
      (run ⟨s, posts⟩ [.selectDate d, .slotsSettled o]).1.app.selectedTime = s.selectedTime ∧
      (run ⟨s, posts⟩ [.selectDate d, .slotsSettled o]).1.app.clientForm = s.clientForm) ∧
    (run ⟨readyToSubmit, posts⟩
        [.selectDate (some june11), .slotsSettled (.resolved [⟨"14:00", false⟩])]).1.app =
      { readyToSubmit with
        selectedDate := some june11, availableSlots := [⟨"14:00", false⟩] } ∧
    clientFormShown (run ⟨readyToSubmit, posts⟩
        [.selectDate (some june11), .slotsSettled (.resolved [])]).1.app = true := by
  refine ⟨rfl, ?_, ?_, ?_, ?_, ?_, ?_⟩
  · simp only [step]
    split <;> simp [selectService]
  · simp only [step]
    split <;> simp
  · cases o <;> rfl
  · simp only [run, step]
    split <;> cases o <;> simp [selectDate, fetchAvailableSlots_settle]
  · simp [run, step, selectDate, fetchAvailableSlots_settle, readyToSubmit, bookingPageShown,
      AppState.initial]
  · simp [run, step, selectDate, fetchAvailableSlots_settle, readyToSubmit, bookingPageShown,
      AppState.initial, clientFormShown]

/-! ## The creation request -/

/-- C12: for a selection that passes validation (with its date set, so that the
request is issued), the one creation request carries a body of six fields:
`service_id` is the id of the selected service, `client_name`, `client_phone`
and `client_email` are the name, phone and e-mail of the client form, `date` is
the selected date rendered by `toISOString().split('T')[0]`, and `time` is the
selected time; it is the body kept with the request in flight, whatever the
outcome of the request. -/
theorem creation_request_body (s : AppState) (service : Service) (date : Date)
    (o : Outcome Appointment) (hv : validationFails s = false)
    (hs : s.selectedService = some service) (hd : s.selectedDate = some date) :
    creationRequests (handleBookingSubmit s o).2 =
      [{ service_id := service.id
         client_name := s.clientForm.name
         client_phone := s.clientForm.phone
         client_email := s.clientForm.email
         date := toISODateString date
         time := s.selectedTime }] ∧
    (∀ body ∈ creationRequests (handleBookingSubmit s o).2,
      body.service_id = service.id ∧ body.client_name = s.clientForm.name ∧
        body.client_phone = s.clientForm.phone ∧ body.client_email = s.clientForm.email ∧
        body.date = toISODateString date ∧ body.time = s.selectedTime) ∧
    (handleBookingSubmit_begin s).pending.map (fun k => k.body) =
      some ⟨service.id, s.clientForm.name, s.clientForm.phone, s.clientForm.email,
        toISODateString date, s.selectedTime⟩ := by
  have hc := creationRequests_of_valid s service date o hv hs hd
  refine ⟨hc, ?_, ?_⟩
  · intro body hb
    rw [hc] at hb
    simp only [List.mem_singleton] at hb
    subst hb
    exact ⟨rfl, rfl, rfl, rfl, rfl, rfl⟩
  · rw [handleBookingSubmit_begin_of_valid s service date hv hs hd]
    rfl

theorem creation_request_body_witness :
    validationFails readyToSubmit = false ∧
    creationRequests (handleBookingSubmit readyToSubmit (.resolved createdAppointment)).2 =
      [⟨"svc-1", "Ana", "11999990000", "", "2025-06-10", "14:00"⟩] := by
  have h := creation_request_body readyToSubmit haircut june10 (.resolved createdAppointment)
    (by decide) rfl rfl
  have hd : toISODateString june10 = "2025-06-10" := by decide
  refine ⟨by decide, ?_⟩
  rw [h.1, hd]
  rfl

/-! ## The selected date and the current day -/

theorem startOfLocalDay_spec (tz : Int) (now : Date) :
    (startOfLocalDay tz now).ms ≤ now.ms ∧
    now.ms < (startOfLocalDay tz now).ms + msPerDay ∧
    ((startOfLocalDay tz now).ms + tz) % msPerDay = 0 := by
  simp only [startOfLocalDay, msPerDay]
  omega

theorem startOfLocalDay_mono (tz : Int) (a b : Date) (h : a.ms ≤ b.ms) :
    (startOfLocalDay tz a).ms ≤ (startOfLocalDay tz b).ms := by
  simp only [startOfLocalDay, msPerDay]
  omega

/-- Only the calendar changes the selected date. -/
theorem step_selectedDate (sys : Sys) (e : Event) (h : ∀ d, e ≠ .selectDate d) :
    (step sys e).1.app.selectedDate = sys.app.selectedDate := by
  cases e with
  | selectDate d => exact absurd rfl (h d)
  | navigate page => rfl
  | bookService service =>
    simp only [step]
    split <;> rfl
  | selectService service =>
    simp only [step]
    split <;> rfl
  | clickTimeSlot slot =>
    simp only [step, clickTimeSlot]
    split
    · split <;> rfl
    · rfl
  | changeName value =>
    simp only [step]
    split <;> rfl
  | changePhone value =>
    simp only [step]
    split <;> rfl
  | changeEmail value =>
    simp only [step]
    split <;> rfl
  | submit =>
    simp only [step]
    split
    · cases hv : validationFails sys.app
      · cases hd : sys.app.selectedDate with
        | none => simp [handleBookingSubmit_begin_of_no_date sys.app hv hd, hd]
        | some date =>
          obtain ⟨service, hs⟩ :=
            Option.isSome_iff_exists.1 ((validationFails_eq_false_iff sys.app).1 hv).1
          simp [handleBookingSubmit_begin_of_valid sys.app service date hv hs hd, hd]
      · simp [handleBookingSubmit_begin_of_invalid sys.app hv]
    · rfl
  | setShowConfirmation value =>
    simp only [step]
    split <;> rfl
  | servicesSettled o => cases o <;> rfl
  | slotsSettled o => cases o <;> rfl
  | appointmentsSettled o => cases o <;> rfl
  | postSettled i o =>
    simp only [step]
    split
    · rfl
    · cases o <;> rfl

/-- A calendar event either sets the date it reports or, off the booking page,
changes nothing. -/
theorem step_selectDate (sys : Sys) (d : Option Date) :
    (step sys (.selectDate d)).1.app.selectedDate = d ∨
      (step sys (.selectDate d)).1 = sys := by
  simp only [step]
  split
  · exact Or.inl rfl
  · exact Or.inr rfl

theorem timedStep_act (tz : Int) (ts : TimedSys) (e : Event)
    (h : ∀ d, e ≠ .selectDate (some d)) :
    timedStep tz ts (.act e) = ({ ts with sys := (step ts.sys e).1 }, (step ts.sys e).2) := by
  cases e with
  | selectDate d =>
    cases d with
    | none => rfl
    | some d => exact absurd rfl (h d)
  | _ => rfl

theorem dateInv_timedStep (tz : Int) (start : Date) (ts : TimedSys) (ev : TimedEvent)
    (h : DateInv tz start ts) : DateInv tz start (timedStep tz ts ev).1 := by
  obtain ⟨hc, hd⟩ := h
  cases ev with
  | tick now =>
    simp only [timedStep]
    split
    · rename_i hle
      refine ⟨le_trans hc hle, fun d hs => ?_⟩
      obtain ⟨t, h1, h2, h3⟩ := hd d hs
      exact ⟨t, h1, le_trans h2 hle, h3⟩
    · exact ⟨hc, hd⟩
  | act e =>
    by_cases hsel : ∃ d, e = .selectDate (some d)
    · obtain ⟨d, rfl⟩ := hsel
      simp only [timedStep]
      split
      · exact ⟨hc, hd⟩
      · rename_i hdis
        refine ⟨hc, fun d2 hs => ?_⟩
        rcases step_selectDate ts.sys (some d) with h1 | h1
        · have hs2 : (step ts.sys (.selectDate (some d))).1.app.selectedDate = some d2 := hs
          rw [h1] at hs2
          have hdd : d = d2 := Option.some.inj hs2
          subst hdd
          refine ⟨ts.clock, hc, le_refl _, ?_⟩
          simp only [dateDisabled, decide_eq_true_eq] at hdis
          exact not_lt.1 hdis
        · have hs2 : (step ts.sys (.selectDate (some d))).1.app.selectedDate = some d2 := hs
          rw [h1] at hs2
          exact hd d2 hs2
    · have hne : ∀ d, e ≠ .selectDate (some d) := fun d hd2 => hsel ⟨d, hd2⟩
      rw [timedStep_act tz ts e hne]
      refine ⟨hc, fun d2 hs => ?_⟩
      have hs2 : (step ts.sys e).1.app.selectedDate = some d2 := hs
      by_cases hnone : e = .selectDate none
      · subst hnone
        rcases step_selectDate ts.sys none with h1 | h1
        · rw [h1] at hs2
          exact absurd hs2 (by simp)
        · rw [h1] at hs2
          exact hd d2 hs2
      · have hall : ∀ d, e ≠ .selectDate d := by
          intro d
          cases d with
          | none => exact hnone
          | some d => exact hne d
        rw [step_selectedDate ts.sys e hall] at hs2
        exact hd d2 hs2

theorem dateInv_of_reachable {tz : Int} {start : Date} {ts : TimedSys}
    (h : TimedReachable tz start ts) : DateInv tz start ts := by
  induction h with
  | init =>
    exact ⟨le_refl _, fun d hs =>
      ⟨start, le_refl _, le_refl _, by
        have hd : start = d := Option.some.inj hs
        rw [← hd]
        exact (startOfLocalDay_spec tz start).1⟩⟩
  | step ev _ ih => exact dateInv_timedStep tz start _ ev ih

/-- C13, as stated, fails: a session opened at 23:59 and rendered again at
00:01 holds the date of its first render, which is earlier than the start of
the current day; so does a session in which today is picked in the calendar
and which is rendered again on the following day. -/
theorem selected_date_before_current_day :
    TimedReachable brasilia beforeMidnight overMidnight ∧
    overMidnight.sys.app.selectedDate = some beforeMidnight ∧
    overMidnight.clock = afterMidnight ∧
    beforeMidnight.ms < (startOfLocalDay brasilia overMidnight.clock).ms ∧
    dateDisabled brasilia overMidnight.clock beforeMidnight = true ∧
    (timedStep brasilia pickedTomorrow (.tick ⟨1749700000000⟩)).1.sys.app.selectedDate
      = some june11Local ∧
    dateDisabled brasilia (timedStep brasilia pickedTomorrow (.tick ⟨1749700000000⟩)).1.clock
      june11Local = true := by
  refine ⟨TimedReachable.step _ TimedReachable.init, ?_, ?_, ?_, ?_, ?_, ?_⟩ <;> decide

/-- C13, amended: in every state a timed session can reach, the selected date,
when set, is not earlier than the start of the day of some moment between the
beginning of the session and the latest render, hence not earlier than the
current day as long as the day has not changed since the session began.  The
initial date is the instant of the first render, which lies in the current
day; the calendar's predicate holds for exactly the dates before the start of
the current day, which is a local midnight; and a calendar event that changes
the selected date sets one that is not earlier than the start of the current
day. -/
theorem selected_date_not_before_day_of_choice (tz : Int) (start : Date) (ts : TimedSys)
    (hr : TimedReachable tz start ts) :
    ((TimedSys.initial start).sys.app.selectedDate = some start ∧
      (startOfLocalDay tz start).ms ≤ start.ms ∧
      start.ms < (startOfLocalDay tz start).ms + msPerDay) ∧
    (∀ now d : Date, dateDisabled tz now d = true ↔ d.ms < (startOfLocalDay tz now).ms) ∧
    (∀ now : Date, ((startOfLocalDay tz now).ms + tz) % msPerDay = 0 ∧
      (startOfLocalDay tz now).ms ≤ now.ms ∧
      now.ms < (startOfLocalDay tz now).ms + msPerDay) ∧
    (∀ d : Date,
      (timedStep tz ts (.act (.selectDate (some d)))).1.sys.app.selectedDate
          ≠ ts.sys.app.selectedDate →
        (timedStep tz ts (.act (.selectDate (some d)))).1.sys.app.selectedDate = some d ∧
          (startOfLocalDay tz ts.clock).ms ≤ d.ms) ∧
    (∀ d : Date, ts.sys.app.selectedDate = some d →
      ∃ t : Date, start.ms ≤ t.ms ∧ t.ms ≤ ts.clock.ms ∧ (startOfLocalDay tz t).ms ≤ d.ms) ∧
    (startOfLocalDay tz ts.clock = startOfLocalDay tz start →
      ∀ d : Date, ts.sys.app.selectedDate = some d → (startOfLocalDay tz ts.clock).ms ≤ d.ms) := by
  have hinv := dateInv_of_reachable hr
  have hspec := startOfLocalDay_spec tz
  refine ⟨⟨rfl, (hspec start).1, (hspec start).2.1⟩, ?_, ?_, ?_, hinv.2, ?_⟩
  · intro now d
    simp [dateDisabled]
  · intro now
    exact ⟨(hspec now).2.2, (hspec now).1, (hspec now).2.1⟩
  · intro d hne
    simp only [timedStep] at hne ⊢
    split at hne
    · exact absurd rfl hne
    · rename_i hdis
      rw [if_neg hdis]
      rcases step_selectDate ts.sys (some d) with h1 | h1
      · refine ⟨h1, ?_⟩
        simp only [dateDisabled, decide_eq_true_eq] at hdis
        exact not_lt.1 hdis
      · exact absurd (by rw [h1]) hne
  · intro hday d hs
    obtain ⟨t, h1, h2, h3⟩ := hinv.2 d hs
    have hm := startOfLocalDay_mono tz start t h1
    have hm2 := startOfLocalDay_mono tz t ts.clock h2
    rw [hday] at hm2 ⊢
    omega

theorem selected_date_not_before_day_of_choice_witness :
    TimedReachable brasilia june10Local pickedTomorrow ∧
    pickedTomorrow.sys.app.selectedDate = some june11Local ∧
    pickedTomorrow.clock = june10Local ∧
    (startOfLocalDay brasilia pickedTomorrow.clock).ms ≤ june11Local.ms ∧
    (timedStep brasilia pickedTomorrow (.act (.selectDate (some june9Local)))).1
      = pickedTomorrow := by
  have hr : TimedReachable brasilia june10Local pickedTomorrow :=
    TimedReachable.step _ (TimedReachable.step _ TimedReachable.init)
  have h := selected_date_not_before_day_of_choice brasilia june10Local pickedTomorrow hr
  have hs : pickedTomorrow.sys.app.selectedDate = some june11Local := by decide
  exact ⟨hr, hs, by decide, h.2.2.2.2.2 (by decide) june11Local hs, by decide⟩

end Urbana
